import Mathlib

/-!
Verification of the ring-segment generator core (`streamlit_app.py`).

The Python source computes the geometry of an annular segment from partial
dimensional inputs, renders it as DXF entities and as a PDF sheet with a
per-unit placement layout.  Python floats are modelled as real numbers;
Python operations that can raise (`/` on a zero denominator, `math.asin`
outside `[-1, 1]`, `ValueError` raised by the validation code) are modelled
in the `Except` monad.
-/

namespace RingSegment

noncomputable section

open Real

/-- `math.radians`: degrees to radians. -/
def radians (d : ℝ) : ℝ := d * (Real.pi / 180)

/-- `math.degrees`: radians to degrees. -/
def degrees (r : ℝ) : ℝ := r * (180 / Real.pi)

/-- Python float division: raises `ZeroDivisionError` on a zero denominator. -/
def pydiv (a b : ℝ) : Except String ℝ :=
  if b = 0 then .error "ZeroDivisionError" else .ok (a / b)

/-- `math.asin`: raises `ValueError: math domain error` outside `[-1, 1]`. -/
def pyasin (x : ℝ) : Except String ℝ :=
  if x < -1 ∨ 1 < x then .error "math domain error" else .ok (Real.arcsin x)

/-- Python `int(...)` applied to a float: truncation toward zero. -/
def pyint (x : ℝ) : ℤ := if x < 0 then ⌈x⌉ else ⌊x⌋

/-- The resolved geometry record returned by `calculate_segment_geometry`. -/
structure Geometry where
  inner_radius : ℝ
  outer_radius : ℝ
  depth : ℝ
  angle_rad : ℝ
  angle_degrees : ℝ
  inner_arc_length : ℝ
  outer_arc_length : ℝ
  inner_chord_length : ℝ
  outer_chord_length : ℝ

/-- The record literal built at the end of `calculate_segment_geometry`
(lines 95-105 of the source): every derived field is computed from the
resolved radii and the angle in radians. -/
def mkGeometry (ir orr θ : ℝ) : Geometry where
  inner_radius := ir
  outer_radius := orr
  depth := orr - ir
  angle_rad := θ
  angle_degrees := degrees θ
  inner_arc_length := ir * θ
  outer_arc_length := orr * θ
  inner_chord_length := 2 * ir * Real.sin (θ / 2)
  outer_chord_length := 2 * orr * Real.sin (θ / 2)

/-- Radii resolution (lines 67-76): both radii missing is an error; with a
`depth`, a given `inner_radius` takes priority (`outer = inner + depth`),
else a given `outer_radius` yields `inner = outer - depth`; without a
`depth` both radii must be given. -/
def resolveRadii (ir? or? d? : Option ℝ) : Except String (ℝ × ℝ) :=
  match ir?, or?, d? with
  | none, none, _ => .error "Must specify at least one radius"
  | some ir, _, some d => .ok (ir, ir + d)
  | none, some orr, some d => .ok (orr - d, orr)
  | some ir, some orr, none => .ok (ir, orr)
  | some _, none, none => .error "Must specify both radii or one radius with depth"
  | none, some _, none => .error "Must specify both radii or one radius with depth"

/-- Angle resolution (lines 82-93): an explicit angle wins, then the chord
(checked against the outer diameter, then `2*asin(chord/(2*outer))`), then
the arc length (`arc/outer`); otherwise an error. -/
def resolveAngle (orr : ℝ) (cl? al? ad? : Option ℝ) : Except String ℝ :=
  match ad? with
  | some ad => .ok (radians ad)
  | none =>
    match cl? with
    | some cl =>
      if cl > 2 * orr then .error "Chord length exceeds diameter"
      else
        match pydiv cl (2 * orr) with
        | .error e => .error e
        | .ok x =>
          match pyasin x with
          | .error e => .error e
          | .ok y => .ok (2 * y)
    | none =>
      match al? with
      | some al => pydiv al orr
      | none => .error "Must specify angle, chord length, or arc length"

/-- `RingSegmentGenerator.calculate_segment_geometry` (lines 62-105). -/
def calculate_segment_geometry (ir? or? d? cl? al? ad? : Option ℝ) :
    Except String Geometry :=
  match resolveRadii ir? or? d? with
  | .error e => .error e
  | .ok (ir, orr) =>
    if ir ≥ orr then .error "Inner radius must be less than outer radius"
    else
      match resolveAngle orr cl? al? ad? with
      | .error e => .error e
      | .ok θ => .ok (mkGeometry ir orr θ)

/-- The DXF entities emitted by `create_dxf_segment`. -/
inductive DxfEntity
  | arc (center : ℝ × ℝ) (radius startAngle endAngle : ℝ)
  | line (p q : ℝ × ℝ)

/-- `RingSegmentGenerator.create_dxf_segment` (lines 108-139): the modelspace
content, in emission order (two arcs, then the two radial lines). -/
def create_dxf_segment (g : Geometry) : List DxfEntity :=
  let inner_radius := g.inner_radius
  let outer_radius := g.outer_radius
  let angle_rad := g.angle_rad
  let end_angle := degrees angle_rad
  [ .arc (0, 0) inner_radius 0 end_angle,
    .arc (0, 0) outer_radius 0 end_angle,
    .line (inner_radius, 0) (outer_radius, 0),
    .line (outer_radius * Real.cos angle_rad, outer_radius * Real.sin angle_rad)
          (inner_radius * Real.cos angle_rad, inner_radius * Real.sin angle_rad) ]

/-- `num_segments = max(20, int(angle_deg / 5))` (line 444). -/
def numSegments (g : Geometry) : ℕ := (max 20 (pyint (g.angle_degrees / 5))).toNat

/-- The outer-arc tessellation of `_draw_unit_with_dimensions` (lines 445-450):
`num_segments + 1` points at angles `angle_rad * i / num_segments`, where
`angle_rad = radians(angle_degrees)` (line 365).  Radii are kept unscaled;
the uniform page scale is applied separately. -/
def outerArcSamples (g : Geometry) : List (ℝ × ℝ) :=
  let ar := radians g.angle_degrees
  let N := numSegments g
  (List.range (N + 1)).map fun (i : ℕ) =>
    (g.outer_radius * Real.cos (ar * ((i : ℝ) / (N : ℝ))),
     g.outer_radius * Real.sin (ar * ((i : ℝ) / (N : ℝ))))

/-- The inner-arc tessellation (lines 458-463): the same `num_segments + 1`
sample angles, traversed from `angle_rad` back to `0`. -/
def innerArcSamples (g : Geometry) : List (ℝ × ℝ) :=
  let ar := radians g.angle_degrees
  let N := numSegments g
  ((List.range (N + 1)).reverse).map fun (i : ℕ) =>
    (g.inner_radius * Real.cos (ar * ((i : ℝ) / (N : ℝ))),
     g.inner_radius * Real.sin (ar * ((i : ℝ) / (N : ℝ))))

/-- The closed presentation outline drawn in lines 435-465: start point,
radial edge, tessellated outer arc, radial edge, tessellated inner arc. -/
def outlinePoints (g : Geometry) : List (ℝ × ℝ) :=
  let ar := radians g.angle_degrees
  [(g.inner_radius, 0), (g.outer_radius, 0)] ++
  outerArcSamples g ++
  [(g.inner_radius * Real.cos ar, g.inner_radius * Real.sin ar)] ++
  innerArcSamples g

/-- `rotation_angle = 90 - angle_deg / 2` (line 371). -/
def rotation_angle (g : Geometry) : ℝ := 90 - g.angle_degrees / 2

/-- The rotation applied to a point in lines 392-395. -/
def rotatePoint (rot_rad : ℝ) (p : ℝ × ℝ) : ℝ × ℝ :=
  (p.1 * Real.cos rot_rad - p.2 * Real.sin rot_rad,
   p.1 * Real.sin rot_rad + p.2 * Real.cos rot_rad)

/-- `points_original` (lines 375-387): the four corner points plus, for each
cardinal angle 90/180/270 strictly exceeded by `angle_deg`, the inner and
outer arc points at that angle. -/
def samplePoints (g : Geometry) : List (ℝ × ℝ) :=
  let ir := g.inner_radius
  let orr := g.outer_radius
  let ar := radians g.angle_degrees
  [(ir, 0), (orr, 0),
   (ir * Real.cos ar, ir * Real.sin ar),
   (orr * Real.cos ar, orr * Real.sin ar)] ++
  (if g.angle_degrees > 90 then
      [(ir * Real.cos (radians 90), ir * Real.sin (radians 90)),
       (orr * Real.cos (radians 90), orr * Real.sin (radians 90))] else []) ++
  (if g.angle_degrees > 180 then
      [(ir * Real.cos (radians 180), ir * Real.sin (radians 180)),
       (orr * Real.cos (radians 180), orr * Real.sin (radians 180))] else []) ++
  (if g.angle_degrees > 270 then
      [(ir * Real.cos (radians 270), ir * Real.sin (radians 270)),
       (orr * Real.cos (radians 270), orr * Real.sin (radians 270))] else [])

/-- `points_rotated` (lines 390-395). -/
def rotatedSamplePoints (g : Geometry) : List (ℝ × ℝ) :=
  (samplePoints g).map (rotatePoint (radians (rotation_angle g)))

/-- Python `max(...)` over a nonempty list (`0` on the empty list, which the
source never reaches). -/
def listMax : List ℝ → ℝ
  | [] => 0
  | x :: xs => xs.foldl max x

/-- Python `min(...)` over a nonempty list. -/
def listMin : List ℝ → ℝ
  | [] => 0
  | x :: xs => xs.foldl min x

/-- `segment_width = max_x - min_x` over the rotated sample points (line 404). -/
def segment_width (g : Geometry) : ℝ :=
  listMax ((rotatedSamplePoints g).map Prod.fst) -
    listMin ((rotatedSamplePoints g).map Prod.fst)

/-- `segment_height = max_y - min_y` over the rotated sample points (line 405). -/
def segment_height (g : Geometry) : ℝ :=
  listMax ((rotatedSamplePoints g).map Prod.snd) -
    listMin ((rotatedSamplePoints g).map Prod.snd)

/-- The scale computation of lines 408-410, with Python division modelled as
the fallible `pydiv`:
`scale_x = max_size * 0.85 / segment_width if segment_width > 0 else 1`,
likewise for `scale_y`, and `scale = min(scale_x, scale_y)`. -/
def computeScale (g : Geometry) (max_size : ℝ) : Except String ℝ :=
  match (if segment_width g > 0 then pydiv (max_size * 0.85) (segment_width g)
         else .ok 1) with
  | .error e => .error e
  | .ok sx =>
    match (if segment_height g > 0 then pydiv (max_size * 0.85) (segment_height g)
           else .ok 1) with
    | .error e => .error e
    | .ok sy => .ok (min sx sy)

/-- The value the scale computation produces (the guards make the divisions
safe, so it never raises; see `computeScale_eq_ok`). -/
def scaleValue (g : Geometry) (max_size : ℝ) : ℝ :=
  min (if segment_width g > 0 then max_size * 0.85 / segment_width g else 1)
      (if segment_height g > 0 then max_size * 0.85 / segment_height g else 1)

/-- The outline after the presentation rotation is applied. -/
def rotatedOutlinePoints (g : Geometry) : List (ℝ × ℝ) :=
  (outlinePoints g).map (rotatePoint (radians (rotation_angle g)))

/-- Horizontal extent of the axis-aligned bounding box of the whole rotated
outline (not only of the sampled corner/cardinal points). -/
def rotatedOutlineWidth (g : Geometry) : ℝ :=
  listMax ((rotatedOutlinePoints g).map Prod.fst) -
    listMin ((rotatedOutlinePoints g).map Prod.fst)

/-- A per-unit placement cell: page-space center and maximum drawing size. -/
structure CellSpec where
  center : ℝ × ℝ
  size : ℝ

/-- The three hand-tuned relative positions of the 3-unit arrangement
(lines 210-214). -/
def trianglePositions : List (ℝ × ℝ) := [(0.25, 0.7), (0.75, 0.7), (0.5, 0.3)]

/-- `cols = min(4, math.ceil(math.sqrt(num_units * 1.3)))` (line 278). -/
def dynCols (n : ℕ) : ℕ := (min 4 ⌈Real.sqrt ((n : ℝ) * 1.3)⌉).toNat

/-- `rows = math.ceil(num_units / cols)` (line 279). -/
def dynRows (n : ℕ) : ℕ := ⌈(n : ℝ) / (dynCols n : ℝ)⌉.toNat

/-- The placement logic of `create_pdf_drawing` (lines 181-293): for each
unit index, the center handed to `_draw_unit_with_dimensions` and the
`max_size` cell budget, by layout branch keyed on the unit count. -/
def planPlacements (n : ℕ) (margin page_height w h : ℝ) : List CellSpec :=
  if n = 1 then
    [⟨(margin + w / 2, page_height - margin - h / 2), min (w * 0.9) (h * 0.9)⟩]
  else if n = 2 then
    (List.range 2).map fun idx =>
      ⟨(margin + (idx : ℝ) * w / 2 + w / 4, page_height - margin - h / 2),
       min (w / 2.2) (h * 0.6)⟩
  else if n = 3 then
    (List.range 3).map fun idx =>
      let p := trianglePositions.getD idx (0, 0)
      ⟨(margin + p.1 * w, page_height - margin - p.2 * h), min (w / 2.5) (h / 2.5)⟩
  else if n = 4 then
    (List.range 4).map fun idx =>
      let row : ℕ := idx / 2
      let col : ℕ := idx % 2
      ⟨(margin + (col : ℝ) * w / 2 + w / 4,
        page_height - margin - (row : ℝ) * h / 2 - h / 4), min (w / 2.3) (h / 2.3)⟩
  else if n ≤ 6 then
    (List.range n).map fun idx =>
      let row : ℕ := idx / 3
      let col : ℕ := idx % 3
      ⟨(margin + (col : ℝ) * w / 3 + w / 6,
        page_height - margin - (row : ℝ) * h / 2 - h / 4), min (w / 3.3) (h / 2.3)⟩
  else if n ≤ 9 then
    (List.range n).map fun idx =>
      let row : ℕ := idx / 3
      let col : ℕ := idx % 3
      ⟨(margin + (col : ℝ) * w / 3 + w / 6,
        page_height - margin - (row : ℝ) * h / 3 - h / 6), min (w / 3.4) (h / 3.4)⟩
  else
    let cols := dynCols n
    let rows := dynRows n
    (List.range n).map fun idx =>
      let row : ℕ := idx / cols
      let col : ℕ := idx % cols
      ⟨(margin + ((col : ℝ) + 0.5) * (w / (cols : ℝ)),
        page_height - margin - ((row : ℝ) + 0.5) * (h / (rows : ℝ))),
       min (w / ((cols : ℝ) + 0.5)) (h / ((rows : ℝ) + 0.5)) * 0.85⟩

/-- A consistent geometry record subtending 180 degrees (inner radius 0,
outer radius 1), used to exercise the orientation normalizer. -/
def gHalf : Geometry :=
  ⟨0, 1, 1, Real.pi, 180, 0, Real.pi, 0, 2⟩

/-- A consistent geometry record subtending 270 degrees (inner radius 0,
outer radius 1). -/
def gWide : Geometry :=
  ⟨0, 1, 1, 3 * Real.pi / 2, 270, 0, 3 * Real.pi / 2, 0, 2 * Real.sin (3 * Real.pi / 4)⟩

/-- A consistent geometry record subtending 101 degrees, where truncation
and rounding-up of `angle_deg / 5` differ. -/
def gOdd : Geometry :=
  ⟨1, 2, 1, radians 101, 101, radians 101, 2 * radians 101,
   2 * Real.sin (radians 101 / 2), 4 * Real.sin (radians 101 / 2)⟩

/-- Every supplied value of an optional input is non-negative. -/
def nonnegOpt (x? : Option ℝ) : Prop := ∀ x, x? = some x → 0 ≤ x

/-- Every supplied value of an optional input is strictly positive. -/
def posOpt (x? : Option ℝ) : Prop := ∀ x, x? = some x → 0 < x

/-- The raising conditions asserted by the specification: radii not
determined, no angle-defining input, resolved `inner_radius >= outer_radius`,
or an angle to be derived from a chord exceeding the outer diameter. -/
def claimedErrorCond (ir? or? d? cl? al? ad? : Option ℝ) : Prop :=
  (ir? = none ∧ or? = none) ∨
  ((ir? = none ∨ or? = none) ∧ d? = none) ∨
  (ad? = none ∧ cl? = none ∧ al? = none) ∨
  (∃ p, resolveRadii ir? or? d? = .ok p ∧ p.1 ≥ p.2) ∨
  (∃ p c, resolveRadii ir? or? d? = .ok p ∧ ad? = none ∧ cl? = some c ∧
    c > 2 * p.2)

/-- The division-by-zero raises the above conditions miss: a resolved outer
radius of zero when the angle is to be derived from the chord (necessarily
zero) or from the arc length. -/
def divZeroCond (ir? or? d? cl? al? ad? : Option ℝ) : Prop :=
  ∃ p, resolveRadii ir? or? d? = .ok p ∧ p.2 = 0 ∧ ad? = none ∧
    (cl? = some 0 ∨ (cl? = none ∧ ∃ a, al? = some a))

/-- Converting degrees to radians and back is the identity. -/
lemma degrees_radians (d : ℝ) : degrees (radians d) = d := by
  unfold degrees radians
  field_simp

/-- Inversion: a successful `calculate_segment_geometry` call passed every
check, and the returned record is the `mkGeometry` literal. -/
lemma solver_ok_inv (ir? or? d? cl? al? ad? : Option ℝ) (g : Geometry)
    (hok : calculate_segment_geometry ir? or? d? cl? al? ad? = .ok g) :
    ∃ ir orr θ, resolveRadii ir? or? d? = .ok (ir, orr) ∧ ¬ ir ≥ orr ∧
      resolveAngle orr cl? al? ad? = .ok θ ∧ g = mkGeometry ir orr θ := by
  unfold calculate_segment_geometry at hok
  cases hr : resolveRadii ir? or? d? with
  | error e => rw [hr] at hok; exact Except.noConfusion hok
  | ok p =>
    obtain ⟨ir, orr⟩ := p
    rw [hr] at hok
    dsimp only at hok
    by_cases hlt : ir ≥ orr
    · rw [if_pos hlt] at hok; exact Except.noConfusion hok
    · rw [if_neg hlt] at hok
      cases ha : resolveAngle orr cl? al? ad? with
      | error e => rw [ha] at hok; exact Except.noConfusion hok
      | ok θ =>
        rw [ha] at hok
        dsimp only at hok
        refine ⟨ir, orr, θ, rfl, hlt, ha, ?_⟩
        injection hok with h
        exact h.symm

/-- Introduction: assembling a successful solver run from the three stages. -/
lemma solver_ok_intro (ir? or? d? cl? al? ad? : Option ℝ) (ir orr θ : ℝ)
    (hr : resolveRadii ir? or? d? = .ok (ir, orr)) (hlt : ¬ ir ≥ orr)
    (ha : resolveAngle orr cl? al? ad? = .ok θ) :
    calculate_segment_geometry ir? or? d? cl? al? ad? = .ok (mkGeometry ir orr θ) := by
  unfold calculate_segment_geometry
  rw [hr]
  dsimp only
  rw [if_neg hlt, ha]

/-- A run with both radii and an explicit angle. -/
lemma solver_eval_angle (ir orr a : ℝ) (hlt : ¬ ir ≥ orr) :
    calculate_segment_geometry (some ir) (some orr) none none none (some a) =
      .ok (mkGeometry ir orr (radians a)) :=
  solver_ok_intro _ _ _ _ _ _ ir orr (radians a) rfl hlt rfl

/-- Evaluation of the chord branch of `resolveAngle` when every check passes. -/
lemma resolveAngle_chord (orr c : ℝ) (al? : Option ℝ) (h1 : ¬ c > 2 * orr)
    (h2 : ¬ (2 * orr = 0)) (h3 : ¬ (c / (2 * orr) < -1 ∨ 1 < c / (2 * orr))) :
    resolveAngle orr (some c) al? none = .ok (2 * Real.arcsin (c / (2 * orr))) := by
  unfold resolveAngle
  dsimp only
  rw [if_neg h1]
  unfold pydiv
  rw [if_neg h2]
  dsimp only
  unfold pyasin
  rw [if_neg h3]

/-- C1 (amended): every record returned by the geometry solver satisfies the
six derived-field identities exactly, and the arc-length-to-radius ratios
recover `angle_rad` whenever the corresponding radius is nonzero. -/
theorem C1_derived_fields (ir? or? d? cl? al? ad? : Option ℝ) (g : Geometry)
    (hok : calculate_segment_geometry ir? or? d? cl? al? ad? = .ok g) :
    g.depth = g.outer_radius - g.inner_radius ∧
    g.inner_arc_length = g.inner_radius * g.angle_rad ∧
    g.outer_arc_length = g.outer_radius * g.angle_rad ∧
    g.inner_chord_length = 2 * g.inner_radius * Real.sin (g.angle_rad / 2) ∧
    g.outer_chord_length = 2 * g.outer_radius * Real.sin (g.angle_rad / 2) ∧
    g.angle_degrees = degrees g.angle_rad ∧
    (g.inner_radius ≠ 0 → g.inner_arc_length / g.inner_radius = g.angle_rad) ∧
    (g.outer_radius ≠ 0 → g.outer_arc_length / g.outer_radius = g.angle_rad) := by
  obtain ⟨ir, orr, θ, _, _, _, hg⟩ := solver_ok_inv ir? or? d? cl? al? ad? g hok
  subst hg
  refine ⟨rfl, rfl, rfl, rfl, rfl, rfl, fun h => ?_, fun h => ?_⟩
  · exact mul_div_cancel_left₀ θ h
  · exact mul_div_cancel_left₀ θ h

/-- C1 witness: the derived-field relations, evaluated on the geometry
obtained from `inner_radius=1, outer_radius=2, angle_degrees=90`. -/
theorem C1_derived_fields_witness :
    (mkGeometry 1 2 (radians 90)).inner_arc_length /
        (mkGeometry 1 2 (radians 90)).inner_radius =
      (mkGeometry 1 2 (radians 90)).angle_rad ∧
    (mkGeometry 1 2 (radians 90)).depth =
      (mkGeometry 1 2 (radians 90)).outer_radius -
        (mkGeometry 1 2 (radians 90)).inner_radius := by
  have h := C1_derived_fields (some 1) (some 2) none none none (some 90)
    (mkGeometry 1 2 (radians 90)) (solver_eval_angle 1 2 90 (by norm_num))
  exact ⟨h.2.2.2.2.2.2.1 (by simp [mkGeometry]), h.1⟩

/-- C1 counterexample: the geometry resolved from
`inner_radius=0, outer_radius=1, angle_degrees=180` has
`inner_arc_length / inner_radius = 0/0 = 0 ≠ angle_rad`, so the ratio
identity does not hold for all resolved geometries. -/
theorem C1_ratio_counterexample :
    calculate_segment_geometry (some 0) (some 1) none none none (some 180) =
      .ok (mkGeometry 0 1 (radians 180)) ∧
    (mkGeometry 0 1 (radians 180)).inner_arc_length /
        (mkGeometry 0 1 (radians 180)).inner_radius ≠
      (mkGeometry 0 1 (radians 180)).angle_rad := by
  constructor
  · exact solver_eval_angle 0 1 180 (by norm_num)
  · simp only [mkGeometry, zero_mul, zero_div]
    intro h
    have hpi : radians 180 = Real.pi := by
      unfold radians; field_simp
    rw [hpi] at h
    exact Real.pi_ne_zero h.symm

/-- C8: the DXF export of a resolved geometry is exactly two arcs at the
origin from 0 to `angle_degrees` at the two radii, plus the two radial
edges, and nothing else. -/
theorem C8_dxf_entities (ir? or? d? cl? al? ad? : Option ℝ) (g : Geometry)
    (hok : calculate_segment_geometry ir? or? d? cl? al? ad? = .ok g) :
    create_dxf_segment g =
      [ .arc (0, 0) g.inner_radius 0 g.angle_degrees,
        .arc (0, 0) g.outer_radius 0 g.angle_degrees,
        .line (g.inner_radius, 0) (g.outer_radius, 0),
        .line (g.outer_radius * Real.cos g.angle_rad,
               g.outer_radius * Real.sin g.angle_rad)
              (g.inner_radius * Real.cos g.angle_rad,
               g.inner_radius * Real.sin g.angle_rad) ] := by
  obtain ⟨ir, orr, θ, _, _, _, hg⟩ := solver_ok_inv ir? or? d? cl? al? ad? g hok
  subst hg
  rfl

/-- C8 witness: the DXF entity list of the geometry resolved from
`inner_radius=1, outer_radius=2, angle_degrees=90`. -/
theorem C8_dxf_entities_witness :
    create_dxf_segment (mkGeometry 1 2 (radians 90)) =
      [ .arc (0, 0) (mkGeometry 1 2 (radians 90)).inner_radius 0
          (mkGeometry 1 2 (radians 90)).angle_degrees,
        .arc (0, 0) (mkGeometry 1 2 (radians 90)).outer_radius 0
          (mkGeometry 1 2 (radians 90)).angle_degrees,
        .line ((mkGeometry 1 2 (radians 90)).inner_radius, 0)
          ((mkGeometry 1 2 (radians 90)).outer_radius, 0),
        .line ((mkGeometry 1 2 (radians 90)).outer_radius *
                 Real.cos (mkGeometry 1 2 (radians 90)).angle_rad,
               (mkGeometry 1 2 (radians 90)).outer_radius *
                 Real.sin (mkGeometry 1 2 (radians 90)).angle_rad)
              ((mkGeometry 1 2 (radians 90)).inner_radius *
                 Real.cos (mkGeometry 1 2 (radians 90)).angle_rad,
               (mkGeometry 1 2 (radians 90)).inner_radius *
                 Real.sin (mkGeometry 1 2 (radians 90)).angle_rad) ] :=
  C8_dxf_entities (some 1) (some 2) none none none (some 90)
    (mkGeometry 1 2 (radians 90)) (solver_eval_angle 1 2 90 (by norm_num))

/-- C9: when `inner_radius`, `outer_radius` and `depth` are all supplied, the
solver's result does not depend on the supplied `outer_radius`, and the
resolved `outer_radius` is `inner_radius + depth`. -/
theorem C9_outer_radius_ignored (ir orr orr2 d : ℝ) (cl? al? ad? : Option ℝ) :
    calculate_segment_geometry (some ir) (some orr) (some d) cl? al? ad? =
      calculate_segment_geometry (some ir) (some orr2) (some d) cl? al? ad? ∧
    ∀ g, calculate_segment_geometry (some ir) (some orr) (some d) cl? al? ad? = .ok g →
      g.outer_radius = ir + d := by
  constructor
  · rfl
  · intro g hok
    obtain ⟨ir2, orr3, θ, hr, _, _, hg⟩ :=
      solver_ok_inv (some ir) (some orr) (some d) cl? al? ad? g hok
    have hpair : (ir, ir + d) = (ir2, orr3) := by
      have heq : resolveRadii (some ir) (some orr) (some d) = .ok (ir, ir + d) := rfl
      rw [heq] at hr
      injection hr
    subst hg
    exact (congrArg Prod.snd hpair).symm

/-- C9 witness: evaluated with `inner_radius=1, depth=2` and two different
supplied outer radii. -/
theorem C9_outer_radius_ignored_witness :
    calculate_segment_geometry (some 1) (some 99) (some 2) none none (some 90) =
      calculate_segment_geometry (some 1) (some 5) (some 2) none none (some 90) ∧
    (mkGeometry 1 (1 + 2) (radians 90)).outer_radius = 1 + 2 := by
  refine ⟨(C9_outer_radius_ignored 1 99 5 2 none none (some 90)).1, ?_⟩
  refine (C9_outer_radius_ignored 1 99 5 2 none none (some 90)).2
    (mkGeometry 1 (1 + 2) (radians 90)) ?_
  exact solver_ok_intro _ _ _ _ _ _ 1 (1 + 2) (radians 90) rfl (by norm_num) rfl

/-- With non-negative inputs, the resolved outer radius is non-negative. -/
lemma resolveRadii_outer_nonneg (ir? or? d? : Option ℝ)
    (h1 : nonnegOpt ir?) (h2 : nonnegOpt or?) (h3 : nonnegOpt d?) (ir orr : ℝ)
    (hr : resolveRadii ir? or? d? = .ok (ir, orr)) : 0 ≤ orr := by
  cases ir? with
  | none =>
    cases or? with
    | none => simp [resolveRadii] at hr
    | some b =>
      cases d? with
      | none => simp [resolveRadii] at hr
      | some d =>
        simp [resolveRadii] at hr
        rw [← hr.2]
        exact h2 b rfl
  | some a =>
    cases d? with
    | some d =>
      cases or? with
      | none =>
        simp [resolveRadii] at hr
        rw [← hr.2]
        have ha := h1 a rfl
        have hd := h3 d rfl
        linarith
      | some b =>
        simp [resolveRadii] at hr
        rw [← hr.2]
        have ha := h1 a rfl
        have hd := h3 d rfl
        linarith
    | none =>
      cases or? with
      | none => simp [resolveRadii] at hr
      | some b =>
        simp [resolveRadii] at hr
        rw [← hr.2]
        exact h2 b rfl

/-- With non-negative radii inputs and a strictly positive angle-defining
input, a successful angle resolution yields a positive angle in radians. -/
lemma resolveAngle_pos (orr : ℝ) (cl? al? ad? : Option ℝ) (horr : 0 ≤ orr)
    (h4 : posOpt cl?) (h5 : posOpt al?) (h6 : posOpt ad?) (θ : ℝ)
    (ha : resolveAngle orr cl? al? ad? = .ok θ) : 0 < θ := by
  cases ad? with
  | some a =>
    have hap := h6 a rfl
    unfold resolveAngle at ha
    injection ha with ha
    rw [← ha]
    unfold radians
    have hpi : (0:ℝ) < Real.pi / 180 := by positivity
    exact mul_pos hap hpi
  | none =>
    cases cl? with
    | some c =>
      have hc := h4 c rfl
      unfold resolveAngle at ha
      dsimp only at ha
      by_cases hgt : c > 2 * orr
      · rw [if_pos hgt] at ha; exact Except.noConfusion ha
      · rw [if_neg hgt] at ha
        by_cases hz : 2 * orr = 0
        · unfold pydiv at ha
          rw [if_pos hz] at ha
          exact Except.noConfusion ha
        · unfold pydiv at ha
          rw [if_neg hz] at ha
          dsimp only at ha
          have horr2 : 0 < orr := by
            rcases horr.lt_or_eq with h | h
            · exact h
            · exact absurd (by rw [← h]; ring) hz
          have hx : 0 < c / (2 * orr) := div_pos hc (by linarith)
          have hx1 : c / (2 * orr) ≤ 1 := by
            rw [div_le_one (by linarith)]
            linarith [not_lt.mp hgt]
          unfold pyasin at ha
          rw [if_neg (by push_neg; exact ⟨by linarith, by linarith⟩)] at ha
          injection ha with ha
          rw [← ha]
          have := Real.arcsin_pos.mpr hx
          linarith
    | none =>
      cases al? with
      | some a =>
        have hap := h5 a rfl
        unfold resolveAngle pydiv at ha
        dsimp only at ha
        by_cases hz : orr = 0
        · rw [if_pos hz] at ha; exact Except.noConfusion ha
        · rw [if_neg hz] at ha
          injection ha with ha
          rw [← ha]
          exact div_pos hap (lt_of_le_of_ne horr (Ne.symm hz))
      | none =>
        unfold resolveAngle at ha
        exact Except.noConfusion ha

/-- C3 (amended): for non-negative inputs whose angle-defining input is
strictly positive, a successfully resolved geometry satisfies
`inner_radius < outer_radius` and `angle_degrees > 0`. -/
theorem C3_resolved_invariants (ir? or? d? cl? al? ad? : Option ℝ)
    (h1 : nonnegOpt ir?) (h2 : nonnegOpt or?) (h3 : nonnegOpt d?)
    (h4 : posOpt cl?) (h5 : posOpt al?) (h6 : posOpt ad?) (g : Geometry)
    (hok : calculate_segment_geometry ir? or? d? cl? al? ad? = .ok g) :
    g.inner_radius < g.outer_radius ∧ 0 < g.angle_degrees := by
  obtain ⟨ir, orr, θ, hr, hlt, ha, hg⟩ := solver_ok_inv _ _ _ _ _ _ g hok
  subst hg
  have horr := resolveRadii_outer_nonneg ir? or? d? h1 h2 h3 ir orr hr
  have hθ := resolveAngle_pos orr cl? al? ad? horr h4 h5 h6 θ ha
  refine ⟨not_le.mp hlt, ?_⟩
  show 0 < degrees θ
  unfold degrees
  have : (0:ℝ) < 180 / Real.pi := by positivity
  exact mul_pos hθ this

/-- C3 witness: the invariants hold on the geometry resolved from
`inner_radius=1, outer_radius=2, angle_degrees=30`. -/
theorem C3_resolved_invariants_witness :
    (mkGeometry 1 2 (radians 30)).inner_radius <
      (mkGeometry 1 2 (radians 30)).outer_radius ∧
    0 < (mkGeometry 1 2 (radians 30)).angle_degrees := by
  refine C3_resolved_invariants (some 1) (some 2) none none none (some 30)
    ?_ ?_ ?_ ?_ ?_ ?_ (mkGeometry 1 2 (radians 30))
    (solver_eval_angle 1 2 30 (by norm_num)) <;>
  · intro x hx
    cases hx <;> norm_num

/-- C3 counterexample: `angle_degrees = 0` is a non-negative input the solver
accepts, but the resolved geometry then has `angle_degrees = 0`, not `> 0`. -/
theorem C3_angle_zero_counterexample :
    calculate_segment_geometry (some 1) (some 2) none none none (some 0) =
      .ok (mkGeometry 1 2 (radians 0)) ∧
    ¬ 0 < (mkGeometry 1 2 (radians 0)).angle_degrees := by
  refine ⟨solver_eval_angle 1 2 0 (by norm_num), ?_⟩
  show ¬ 0 < degrees (radians 0)
  unfold degrees radians
  norm_num

/-- C4 (amended): for `0 ≤ inner_radius < outer_radius` and `0 < θ ≤ 180`,
solving with the angle, feeding the resulting `outer_chord_length` back in
as the chord input, and reading off the angle recovers `θ` exactly. -/
theorem C4_chord_round_trip (ir orr θ : ℝ) (h0 : 0 ≤ ir) (h1 : ir < orr)
    (h2 : 0 < θ) (h3 : θ ≤ 180) :
    ∃ g1 g2,
      calculate_segment_geometry (some ir) (some orr) none none none (some θ) =
        .ok g1 ∧
      calculate_segment_geometry (some ir) (some orr) none
          (some g1.outer_chord_length) none none = .ok g2 ∧
      g2.angle_degrees = θ := by
  have horr : 0 < orr := lt_of_le_of_lt h0 h1
  have hlt : ¬ ir ≥ orr := not_le.mpr h1
  have hpi : (0:ℝ) < Real.pi := Real.pi_pos
  set x : ℝ := radians θ / 2 with hxdef
  have hx0 : 0 < x := by
    rw [hxdef]
    unfold radians
    have := mul_pos h2 (div_pos hpi (by norm_num : (0:ℝ) < 180))
    linarith
  have hrle : radians θ ≤ Real.pi := by
    unfold radians
    calc θ * (Real.pi / 180) ≤ 180 * (Real.pi / 180) := by
          apply mul_le_mul_of_nonneg_right h3
          positivity
      _ = Real.pi := by field_simp
  have hxle : x ≤ Real.pi / 2 := by rw [hxdef]; linarith
  have hs0 : 0 < Real.sin x := Real.sin_pos_of_pos_of_lt_pi hx0 (by linarith)
  have hs1 : Real.sin x ≤ 1 := Real.sin_le_one x
  have hz : ¬ (2 * orr = 0) := ne_of_gt (by linarith)
  have hdiv : 2 * orr * Real.sin x / (2 * orr) = Real.sin x :=
    mul_div_cancel_left₀ _ hz
  have hcle : ¬ (2 * orr * Real.sin x > 2 * orr) := by
    push_neg
    nlinarith
  have hdom : ¬ (2 * orr * Real.sin x / (2 * orr) < -1 ∨
      1 < 2 * orr * Real.sin x / (2 * orr)) := by
    rw [hdiv]
    push_neg
    exact ⟨by linarith, by linarith⟩
  have hchord : resolveAngle orr (some (2 * orr * Real.sin x)) none none =
      .ok (2 * Real.arcsin (2 * orr * Real.sin x / (2 * orr))) :=
    resolveAngle_chord orr _ none hcle hz hdom
  have harc : Real.arcsin (Real.sin x) = x := Real.arcsin_sin (by linarith) hxle
  have hθ2 : 2 * Real.arcsin (2 * orr * Real.sin x / (2 * orr)) = radians θ := by
    rw [hdiv, harc, hxdef]
    ring
  refine ⟨mkGeometry ir orr (radians θ), mkGeometry ir orr (radians θ),
    solver_eval_angle ir orr θ hlt, ?_, degrees_radians θ⟩
  have hrun : calculate_segment_geometry (some ir) (some orr) none
      (some (2 * orr * Real.sin x)) none none =
      .ok (mkGeometry ir orr (2 * Real.arcsin (2 * orr * Real.sin x / (2 * orr)))) :=
    solver_ok_intro _ _ _ _ _ _ ir orr _ rfl hlt hchord
  rw [hθ2] at hrun
  exact hrun

/-- C4 witness: the round trip at `inner_radius=0, outer_radius=1, θ=90`. -/
theorem C4_chord_round_trip_witness :
    ∃ g1 g2,
      calculate_segment_geometry (some 0) (some 1) none none none (some 90) =
        .ok g1 ∧
      calculate_segment_geometry (some 0) (some 1) none
          (some g1.outer_chord_length) none none = .ok g2 ∧
      g2.angle_degrees = 90 :=
  C4_chord_round_trip 0 1 90 (by norm_num) (by norm_num) (by norm_num) (by norm_num)

/-- C4 counterexample: at `θ = 360` the computed outer chord is `0`, and
resolving with chord `0` returns angle `0`, not `360`: the round trip fails
for angles above 180 degrees. -/
theorem C4_round_trip_counterexample :
    calculate_segment_geometry (some 0) (some 1) none none none (some 360) =
      .ok (mkGeometry 0 1 (radians 360)) ∧
    calculate_segment_geometry (some 0) (some 1) none
        (some ((mkGeometry 0 1 (radians 360)).outer_chord_length)) none none =
      .ok (mkGeometry 0 1 (2 * Real.arcsin 0)) ∧
    (mkGeometry 0 1 (2 * Real.arcsin 0)).angle_degrees ≠ 360 := by
  have hc : (mkGeometry 0 1 (radians 360)).outer_chord_length = 0 := by
    show 2 * 1 * Real.sin (radians 360 / 2) = 0
    have hpi2 : radians 360 / 2 = Real.pi := by
      unfold radians
      field_simp
      ring
    rw [hpi2, Real.sin_pi]
    ring
  refine ⟨solver_eval_angle 0 1 360 (by norm_num), ?_, ?_⟩
  · rw [hc]
    have hchord : resolveAngle 1 (some 0) none none =
        .ok (2 * Real.arcsin (0 / (2 * 1))) :=
      resolveAngle_chord 1 0 none (by norm_num) (by norm_num) (by norm_num)
    have h0 : (0:ℝ) / (2 * 1) = 0 := by norm_num
    rw [h0] at hchord
    exact solver_ok_intro _ _ _ _ _ _ 0 1 _ rfl (by norm_num) hchord
  · show degrees (2 * Real.arcsin 0) ≠ 360
    rw [Real.arcsin_zero]
    unfold degrees
    norm_num

/-- The radii-resolution stage raises exactly when the inputs do not
determine both radii. -/
lemma resolveRadii_error_iff (ir? or? d? : Option ℝ) :
    (∃ e, resolveRadii ir? or? d? = .error e) ↔
      (ir? = none ∧ or? = none) ∨ ((ir? = none ∨ or? = none) ∧ d? = none) := by
  cases ir? <;> cases or? <;> cases d? <;> simp [resolveRadii]

/-- The angle-resolution stage, on non-negative inputs: it raises exactly
when no angle-defining input is given, the chord exceeds the outer diameter,
or the outer radius is zero in the chord-of-zero or arc branches. -/
lemma resolveAngle_error_iff (orr : ℝ) (cl? al? ad? : Option ℝ)
    (horr : 0 ≤ orr) (h4 : nonnegOpt cl?) :
    (∃ e, resolveAngle orr cl? al? ad? = .error e) ↔
      (ad? = none ∧ cl? = none ∧ al? = none) ∨
      (ad? = none ∧ ∃ c, cl? = some c ∧ c > 2 * orr) ∨
      (ad? = none ∧ orr = 0 ∧ (cl? = some 0 ∨ (cl? = none ∧ ∃ a, al? = some a))) := by
  cases ad? with
  | some a => simp [resolveAngle]
  | none =>
    cases cl? with
    | some c =>
      have hc : 0 ≤ c := h4 c rfl
      by_cases hgt : c > 2 * orr
      · apply iff_of_true
        · exact ⟨"Chord length exceeds diameter", by
            unfold resolveAngle
            dsimp only
            rw [if_pos hgt]⟩
        · exact Or.inr (Or.inl ⟨rfl, c, rfl, hgt⟩)
      · by_cases hz : orr = 0
        · have hc0 : c = 0 := by
            rw [hz] at hgt
            push_neg at hgt
            linarith
          apply iff_of_true
          · exact ⟨"ZeroDivisionError", by
              unfold resolveAngle
              dsimp only
              rw [if_neg hgt]
              unfold pydiv
              rw [if_pos (by rw [hz]; ring)]⟩
          · exact Or.inr (Or.inr ⟨rfl, hz, Or.inl (by rw [hc0])⟩)
        · have horr2 : 0 < orr := lt_of_le_of_ne horr (Ne.symm hz)
          have hzz : ¬ (2 * orr = 0) := ne_of_gt (by linarith)
          have hdom : ¬ (c / (2 * orr) < -1 ∨ 1 < c / (2 * orr)) := by
            push_neg
            constructor
            · have : 0 ≤ c / (2 * orr) := div_nonneg hc (by linarith)
              linarith
            · rw [div_le_one (by linarith)]
              linarith [not_lt.mp hgt]
          apply iff_of_false
          · rintro ⟨e, he⟩
            rw [resolveAngle_chord orr c al? hgt hzz hdom] at he
            exact Except.noConfusion he
          · rintro (⟨_, h, _⟩ | ⟨_, c2, hc2, hgt2⟩ | ⟨_, hz2, _⟩)
            · exact Option.noConfusion h
            · injection hc2 with h
              rw [← h] at hgt2
              exact hgt hgt2
            · exact hz hz2
    | none =>
      cases al? with
      | some a =>
        by_cases hz : orr = 0
        · apply iff_of_true
          · exact ⟨"ZeroDivisionError", by
              unfold resolveAngle pydiv
              dsimp only
              rw [if_pos hz]⟩
          · exact Or.inr (Or.inr ⟨rfl, hz, Or.inr ⟨rfl, a, rfl⟩⟩)
        · apply iff_of_false
          · rintro ⟨e, he⟩
            unfold resolveAngle pydiv at he
            dsimp only at he
            rw [if_neg hz] at he
            exact Except.noConfusion he
          · rintro (⟨_, _, h⟩ | ⟨_, c, hc2, _⟩ | ⟨_, hz2, _⟩)
            · exact Option.noConfusion h
            · exact Option.noConfusion hc2
            · exact hz hz2
      | none =>
        apply iff_of_true
        · exact ⟨"Must specify angle, chord length, or arc length", rfl⟩
        · exact Or.inl ⟨rfl, rfl, rfl⟩

/-- Decomposition of a raising solver run into its three stages. -/
lemma solver_error_decomp (ir? or? d? cl? al? ad? : Option ℝ) :
    (∃ e, calculate_segment_geometry ir? or? d? cl? al? ad? = .error e) ↔
      (∃ e, resolveRadii ir? or? d? = .error e) ∨
      (∃ p, resolveRadii ir? or? d? = .ok p ∧
        (p.1 ≥ p.2 ∨ (¬ p.1 ≥ p.2 ∧ ∃ e, resolveAngle p.2 cl? al? ad? = .error e))) := by
  unfold calculate_segment_geometry
  cases hr : resolveRadii ir? or? d? with
  | error e =>
    simp
  | ok p =>
    obtain ⟨ir, orr⟩ := p
    dsimp only
    by_cases hge : ir ≥ orr
    · rw [if_pos hge]
      apply iff_of_true
      · exact ⟨"Inner radius must be less than outer radius", rfl⟩
      · exact Or.inr ⟨(ir, orr), rfl, Or.inl hge⟩
    · rw [if_neg hge]
      cases ha : resolveAngle orr cl? al? ad? with
      | error e =>
        apply iff_of_true
        · exact ⟨e, rfl⟩
        · exact Or.inr ⟨(ir, orr), rfl, Or.inr ⟨hge, e, ha⟩⟩
      | ok θ =>
        apply iff_of_false
        · rintro ⟨e, he⟩
          exact Except.noConfusion he
        · rintro (⟨e, he⟩ | ⟨p, hp, hor⟩)
          · exact Except.noConfusion he
          · injection hp with hp
            rcases hor with h | ⟨hne, e, he⟩
            · rw [← hp] at h
              exact hge h
            · rw [← hp] at he
              dsimp only at he
              rw [ha] at he
              exact Except.noConfusion he

/-- C2 (amended): over non-negative inputs, the solver raises exactly in the
four specified cases or in the two division-by-zero cases (resolved outer
radius zero with the angle to be derived from chord zero or from the arc);
for every other non-negative input it returns a geometry record. -/
theorem C2_error_characterization (ir? or? d? cl? al? ad? : Option ℝ)
    (h1 : nonnegOpt ir?) (h2 : nonnegOpt or?) (h3 : nonnegOpt d?)
    (h4 : nonnegOpt cl?) (h5 : nonnegOpt al?) (h6 : nonnegOpt ad?) :
    (∃ e, calculate_segment_geometry ir? or? d? cl? al? ad? = .error e) ↔
      claimedErrorCond ir? or? d? cl? al? ad? ∨
        divZeroCond ir? or? d? cl? al? ad? := by
  rw [solver_error_decomp]
  constructor
  · intro h
    rcases h with hradii | ⟨p, hp, hval⟩
    · rcases (resolveRadii_error_iff ir? or? d?).mp hradii with h | h
      · exact Or.inl (Or.inl h)
      · exact Or.inl (Or.inr (Or.inl h))
    · obtain ⟨ir, orr⟩ := p
      have horr : 0 ≤ orr := resolveRadii_outer_nonneg _ _ _ h1 h2 h3 ir orr hp
      rcases hval with hge | ⟨hne, hangle⟩
      · exact Or.inl (Or.inr (Or.inr (Or.inr (Or.inl ⟨(ir, orr), hp, hge⟩))))
      · rcases (resolveAngle_error_iff orr cl? al? ad? horr h4).mp hangle with
          hnone | ⟨had, c, hcl, hgt⟩ | ⟨had, hz, hcase⟩
        · exact Or.inl (Or.inr (Or.inr (Or.inl hnone)))
        · exact Or.inl (Or.inr (Or.inr (Or.inr (Or.inr
            ⟨(ir, orr), c, hp, had, hcl, hgt⟩))))
        · exact Or.inr ⟨(ir, orr), hp, hz, had, hcase⟩
  · intro h
    rcases h with (hA | hB | hC | ⟨p, hp, hge⟩ | ⟨p, c, hp, had, hcl, hgt⟩) |
      ⟨p, hp, hz, had, hcase⟩
    · exact Or.inl ((resolveRadii_error_iff _ _ _).mpr (Or.inl hA))
    · exact Or.inl ((resolveRadii_error_iff _ _ _).mpr (Or.inr hB))
    · cases hr : resolveRadii ir? or? d? with
      | error e => exact Or.inl ⟨e, rfl⟩
      | ok p =>
        obtain ⟨ir, orr⟩ := p
        have horr : 0 ≤ orr := resolveRadii_outer_nonneg _ _ _ h1 h2 h3 ir orr hr
        right
        refine ⟨(ir, orr), rfl, ?_⟩
        by_cases hge : ir ≥ orr
        · exact Or.inl hge
        · exact Or.inr ⟨hge,
            (resolveAngle_error_iff orr cl? al? ad? horr h4).mpr (Or.inl hC)⟩
    · exact Or.inr ⟨p, hp, Or.inl hge⟩
    · obtain ⟨ir, orr⟩ := p
      have horr : 0 ≤ orr := resolveRadii_outer_nonneg _ _ _ h1 h2 h3 ir orr hp
      right
      refine ⟨(ir, orr), hp, ?_⟩
      by_cases hge : ir ≥ orr
      · exact Or.inl hge
      · exact Or.inr ⟨hge,
          (resolveAngle_error_iff orr cl? al? ad? horr h4).mpr
            (Or.inr (Or.inl ⟨had, c, hcl, hgt⟩))⟩
    · obtain ⟨ir, orr⟩ := p
      have horr : 0 ≤ orr := resolveRadii_outer_nonneg _ _ _ h1 h2 h3 ir orr hp
      right
      refine ⟨(ir, orr), hp, ?_⟩
      by_cases hge : ir ≥ orr
      · exact Or.inl hge
      · exact Or.inr ⟨hge,
          (resolveAngle_error_iff orr cl? al? ad? horr h4).mpr
            (Or.inr (Or.inr ⟨had, hz, hcase⟩))⟩

/-- C2 witness: `inner_radius=1, outer_radius=2, angle_degrees=30` triggers
none of the raising conditions, and indeed the solver returns a record. -/
theorem C2_error_characterization_witness :
    ¬ (claimedErrorCond (some 1) (some 2) none none none (some 30) ∨
       divZeroCond (some 1) (some 2) none none none (some 30)) := by
  intro hc
  have herr := (C2_error_characterization (some 1) (some 2) none none none (some 30)
    (by intro x hx; cases hx <;> norm_num) (by intro x hx; cases hx <;> norm_num)
    (by intro x hx; cases hx) (by intro x hx; cases hx)
    (by intro x hx; cases hx) (by intro x hx; cases hx <;> norm_num)).mpr hc
  obtain ⟨e, he⟩ := herr
  rw [solver_eval_angle 1 2 30 (by norm_num)] at he
  exact Except.noConfusion he

/-- C2 counterexample: `outer_radius=0, depth=1, arc_length=1` is a
non-negative input matching none of the specified raising conditions
(the resolved radii are `(-1, 0)`), yet the solver raises a
`ZeroDivisionError` instead of returning a geometry record. -/
theorem C2_zero_division_counterexample :
    (∃ e, calculate_segment_geometry none (some 0) (some 1) none (some 1) none =
      .error e) ∧
    ¬ claimedErrorCond none (some 0) (some 1) none (some 1) none := by
  constructor
  · refine ⟨"ZeroDivisionError", ?_⟩
    unfold calculate_segment_geometry
    have hr : resolveRadii none (some 0) (some 1) = .ok (0 - 1, 0) := rfl
    rw [hr]
    dsimp only
    rw [if_neg (by norm_num : ¬ (0 - 1 : ℝ) ≥ 0)]
    have ha : resolveAngle 0 none (some 1) none = .error "ZeroDivisionError" := by
      unfold resolveAngle pydiv
      dsimp only
      rw [if_pos rfl]
    rw [ha]
  · intro h
    rcases h with ⟨_, h⟩ | ⟨_, h⟩ | ⟨_, _, h⟩ | ⟨p, hp, hge⟩ | ⟨p, c, hp, _, hcl, _⟩
    · exact Option.noConfusion h
    · exact Option.noConfusion h
    · exact Option.noConfusion h
    · have hr : resolveRadii none (some 0) (some 1) = .ok (0 - 1, 0) := rfl
      rw [hr] at hp
      injection hp with hp
      rw [← hp] at hge
      dsimp only at hge
      norm_num at hge
    · exact Option.noConfusion hcl

/-- The seed of a `max`-fold bounds the fold from below. -/
lemma le_foldl_max (l : List ℝ) (b : ℝ) : b ≤ l.foldl max b := by
  induction l generalizing b with
  | nil => simp
  | cons y ys ih => exact le_trans (le_max_left b y) (ih (max b y))

/-- Every member of the list bounds a `max`-fold from below. -/
lemma mem_le_foldl_max (l : List ℝ) (b x : ℝ) (hx : x ∈ l) : x ≤ l.foldl max b := by
  induction l generalizing b with
  | nil => cases hx
  | cons y ys ih =>
    rcases List.mem_cons.mp hx with h | h
    · rw [h]
      exact le_trans (le_max_right b y) (le_foldl_max ys (max b y))
    · exact ih (max b y) h

/-- The seed of a `min`-fold bounds the fold from above. -/
lemma foldl_min_le (l : List ℝ) (b : ℝ) : l.foldl min b ≤ b := by
  induction l generalizing b with
  | nil => simp
  | cons y ys ih => exact le_trans (ih (min b y)) (min_le_left b y)

/-- Every member of the list bounds a `min`-fold from above. -/
lemma foldl_min_le_mem (l : List ℝ) (b x : ℝ) (hx : x ∈ l) : l.foldl min b ≤ x := by
  induction l generalizing b with
  | nil => cases hx
  | cons y ys ih =>
    rcases List.mem_cons.mp hx with h | h
    · rw [h]
      exact le_trans (foldl_min_le ys (min b y)) (min_le_right b y)
    · exact ih (min b y) h

/-- `listMax` dominates every member. -/
lemma le_listMax_of_mem {l : List ℝ} {x : ℝ} (hx : x ∈ l) : x ≤ listMax l := by
  cases l with
  | nil => cases hx
  | cons y ys =>
    rcases List.mem_cons.mp hx with h | h
    · rw [h]
      exact le_foldl_max ys y
    · exact mem_le_foldl_max ys y x h

/-- `listMin` is below every member. -/
lemma listMin_le_of_mem {l : List ℝ} {x : ℝ} (hx : x ∈ l) : listMin l ≤ x := by
  cases l with
  | nil => cases hx
  | cons y ys =>
    rcases List.mem_cons.mp hx with h | h
    · rw [h]
      exact foldl_min_le ys y
    · exact foldl_min_le_mem ys y x h

/-- The guarded scale computation never raises and produces `scaleValue`. -/
lemma computeScale_eq_ok (g : Geometry) (m : ℝ) :
    computeScale g m = .ok (scaleValue g m) := by
  unfold computeScale scaleValue
  by_cases hw : segment_width g > 0
  · by_cases hh : segment_height g > 0
    · simp [hw, hh, pydiv, ne_of_gt hw, ne_of_gt hh]
    · simp [hw, hh, pydiv, ne_of_gt hw]
  · by_cases hh : segment_height g > 0
    · simp [hw, hh, pydiv, ne_of_gt hh]
    · simp [hw, hh]

/-- C10: the scale computation is total for every geometry: both divisions
are guarded by the `> 0` tests (a zero-extent axis contributes candidate 1),
so it always returns `min` of the two guarded candidates and never raises. -/
theorem C10_scale_computation_total (g : Geometry) (max_size : ℝ) :
    computeScale g max_size =
      .ok (min (if segment_width g > 0 then max_size * 0.85 / segment_width g else 1)
               (if segment_height g > 0 then max_size * 0.85 / segment_height g else 1)) :=
  computeScale_eq_ok g max_size

/-- C6 (amended): for a geometry with positive sampled bounding-box extents,
the returned scale is `min(0.85*box/width, 0.85*box/height)` of the rotated
sampled bounding box, and at that scale the rotated sampled bounding box
fits within the target box on both axes.  (The full outline can exceed the
sampled bounding box; see the counterexample.) -/
theorem C6_scale_fits_sampled_bbox (g : Geometry) (m : ℝ)
    (hw : 0 < segment_width g) (hh : 0 < segment_height g) (hm : 0 ≤ m) :
    computeScale g m =
      .ok (min (m * 0.85 / segment_width g) (m * 0.85 / segment_height g)) ∧
    scaleValue g m * segment_width g ≤ m ∧
    scaleValue g m * segment_height g ≤ m := by
  have heq : scaleValue g m =
      min (m * 0.85 / segment_width g) (m * 0.85 / segment_height g) := by
    unfold scaleValue
    rw [if_pos hw, if_pos hh]
  refine ⟨by rw [computeScale_eq_ok, heq], ?_, ?_⟩
  · calc scaleValue g m * segment_width g
        ≤ (m * 0.85 / segment_width g) * segment_width g := by
          apply mul_le_mul_of_nonneg_right _ (le_of_lt hw)
          rw [heq]
          exact min_le_left _ _
      _ = m * 0.85 := div_mul_cancel₀ _ (ne_of_gt hw)
      _ ≤ m := by linarith
  · calc scaleValue g m * segment_height g
        ≤ (m * 0.85 / segment_height g) * segment_height g := by
          apply mul_le_mul_of_nonneg_right _ (le_of_lt hh)
          rw [heq]
          exact min_le_right _ _
      _ = m * 0.85 := div_mul_cancel₀ _ (ne_of_gt hh)
      _ ≤ m := by linarith

/-- The 180-degree geometry rotates by 0 degrees, and its sampled points
span `[-1, 1]` horizontally. -/
lemma segment_width_gHalf : segment_width gHalf = 2 := by
  have h90 : radians 90 = Real.pi / 2 := by unfold radians; field_simp; ring
  have h180 : radians 180 = Real.pi := by unfold radians; field_simp
  have h0 : radians 0 = 0 := by unfold radians; ring
  unfold segment_width rotatedSamplePoints samplePoints rotation_angle rotatePoint gHalf
  norm_num [h90, h180, h0, Real.cos_pi, Real.sin_pi, Real.cos_pi_div_two,
    Real.sin_pi_div_two, listMax, listMin, max_def, min_def]

/-- The 180-degree geometry's sampled points span `[0, 1]` vertically. -/
lemma segment_height_gHalf : segment_height gHalf = 1 := by
  have h90 : radians 90 = Real.pi / 2 := by unfold radians; field_simp; ring
  have h180 : radians 180 = Real.pi := by unfold radians; field_simp
  have h0 : radians 0 = 0 := by unfold radians; ring
  unfold segment_height rotatedSamplePoints samplePoints rotation_angle rotatePoint gHalf
  norm_num [h90, h180, h0, Real.cos_pi, Real.sin_pi, Real.cos_pi_div_two,
    Real.sin_pi_div_two, listMax, listMin, max_def, min_def]

/-- C6 witness: the scale and fit for the 180-degree geometry in a box of
size 2. -/
theorem C6_scale_fits_sampled_bbox_witness :
    computeScale gHalf 2 =
      .ok (min (2 * 0.85 / segment_width gHalf) (2 * 0.85 / segment_height gHalf)) ∧
    scaleValue gHalf 2 * segment_width gHalf ≤ 2 ∧
    scaleValue gHalf 2 * segment_height gHalf ≤ 2 :=
  C6_scale_fits_sampled_bbox gHalf 2
    (by rw [segment_width_gHalf]; norm_num)
    (by rw [segment_height_gHalf]; norm_num)
    (by norm_num)

/-- An upper bound on every element and on the seed bounds a `max`-fold. -/
lemma foldl_max_le (l : List ℝ) (b c : ℝ) (hb : b ≤ c) (h : ∀ x ∈ l, x ≤ c) :
    l.foldl max b ≤ c := by
  induction l generalizing b with
  | nil => simpa using hb
  | cons y ys ih =>
    exact ih (max b y) (max_le hb (h y (by simp)))
      (fun x hx => h x (by simp [hx]))

/-- `listMax` of a nonempty list is at most any common upper bound. -/
lemma listMax_le_of_forall {l : List ℝ} {c : ℝ} (hne : l ≠ [])
    (h : ∀ x ∈ l, x ≤ c) : listMax l ≤ c := by
  cases l with
  | nil => exact absurd rfl hne
  | cons y ys =>
    exact foldl_max_le ys y c (h y (by simp)) (fun x hx => h x (by simp [hx]))

/-- A lower bound on every element and on the seed bounds a `min`-fold. -/
lemma le_foldl_min (l : List ℝ) (b c : ℝ) (hb : c ≤ b) (h : ∀ x ∈ l, c ≤ x) :
    c ≤ l.foldl min b := by
  induction l generalizing b with
  | nil => simpa using hb
  | cons y ys ih =>
    exact ih (min b y) (le_min hb (h y (by simp)))
      (fun x hx => h x (by simp [hx]))

/-- `listMin` of a nonempty list is at least any common lower bound. -/
lemma le_listMin_of_forall {l : List ℝ} {c : ℝ} (hne : l ≠ [])
    (h : ∀ x ∈ l, c ≤ x) : c ≤ listMin l := by
  cases l with
  | nil => exact absurd rfl hne
  | cons y ys =>
    exact le_foldl_min ys y c (h y (by simp)) (fun x hx => h x (by simp [hx]))

/-- `math.radians(270)` as a multiple of pi. -/
lemma radians_270 : radians 270 = 3 * Real.pi / 2 := by
  unfold radians
  field_simp
  ring

/-- Cosine at 270 degrees. -/
lemma cos_three_pi_div_two : Real.cos (3 * Real.pi / 2) = 0 := by
  have h : 3 * Real.pi / 2 = Real.pi + Real.pi / 2 := by ring
  rw [h, Real.cos_add]
  simp

/-- Sine at 270 degrees. -/
lemma sin_three_pi_div_two : Real.sin (3 * Real.pi / 2) = -1 := by
  have h : 3 * Real.pi / 2 = Real.pi + Real.pi / 2 := by ring
  rw [h, Real.sin_add]
  simp

/-- The 270-degree geometry is rotated by `90 - 270/2 = -45` degrees. -/
lemma rot_gWide : radians (rotation_angle gWide) = -(Real.pi / 4) := by
  have h : rotation_angle gWide = -45 := by
    unfold rotation_angle gWide
    norm_num
  rw [h]
  unfold radians
  field_simp
  ring

/-- The rotated corner/cardinal sample points of the 270-degree geometry. -/
lemma rotatedSamplePoints_gWide :
    rotatedSamplePoints gWide =
      [(0, 0), (Real.sqrt 2 / 2, -(Real.sqrt 2 / 2)), (0, 0),
       (-(Real.sqrt 2 / 2), -(Real.sqrt 2 / 2)), (0, 0),
       (Real.sqrt 2 / 2, Real.sqrt 2 / 2), (0, 0),
       (-(Real.sqrt 2 / 2), Real.sqrt 2 / 2)] := by
  have h90 : radians 90 = Real.pi / 2 := by unfold radians; field_simp; ring
  have h180 : radians 180 = Real.pi := by unfold radians; field_simp
  unfold rotatedSamplePoints samplePoints rotatePoint
  rw [rot_gWide]
  norm_num [gWide, h90, h180, radians_270, cos_three_pi_div_two,
    sin_three_pi_div_two, Real.cos_pi, Real.sin_pi, Real.cos_pi_div_two,
    Real.sin_pi_div_two, Real.cos_pi_div_four, Real.sin_pi_div_four]

/-- Horizontal extent of the 270-degree geometry's sampled bounding box. -/
lemma segment_width_gWide : segment_width gWide = Real.sqrt 2 := by
  have ha : (0:ℝ) < Real.sqrt 2 := Real.sqrt_pos.mpr (by norm_num)
  unfold segment_width
  rw [rotatedSamplePoints_gWide]
  simp only [List.map_cons, List.map_nil]
  have hmax : listMax [(0:ℝ), Real.sqrt 2 / 2, 0, -(Real.sqrt 2 / 2), 0,
      Real.sqrt 2 / 2, 0, -(Real.sqrt 2 / 2)] = Real.sqrt 2 / 2 := by
    apply le_antisymm
    · apply listMax_le_of_forall (by simp)
      intro x hx
      fin_cases hx <;> linarith
    · exact le_listMax_of_mem (by simp)
  have hmin : listMin [(0:ℝ), Real.sqrt 2 / 2, 0, -(Real.sqrt 2 / 2), 0,
      Real.sqrt 2 / 2, 0, -(Real.sqrt 2 / 2)] = -(Real.sqrt 2 / 2) := by
    apply le_antisymm
    · exact listMin_le_of_mem (by simp)
    · apply le_listMin_of_forall (by simp)
      intro x hx
      fin_cases hx <;> linarith
  rw [hmax, hmin]
  ring

/-- Vertical extent of the 270-degree geometry's sampled bounding box. -/
lemma segment_height_gWide : segment_height gWide = Real.sqrt 2 := by
  have ha : (0:ℝ) < Real.sqrt 2 := Real.sqrt_pos.mpr (by norm_num)
  unfold segment_height
  rw [rotatedSamplePoints_gWide]
  simp only [List.map_cons, List.map_nil]
  have hmax : listMax [(0:ℝ), -(Real.sqrt 2 / 2), 0, -(Real.sqrt 2 / 2), 0,
      Real.sqrt 2 / 2, 0, Real.sqrt 2 / 2] = Real.sqrt 2 / 2 := by
    apply le_antisymm
    · apply listMax_le_of_forall (by simp)
      intro x hx
      fin_cases hx <;> linarith
    · exact le_listMax_of_mem (by simp)
  have hmin : listMin [(0:ℝ), -(Real.sqrt 2 / 2), 0, -(Real.sqrt 2 / 2), 0,
      Real.sqrt 2 / 2, 0, Real.sqrt 2 / 2] = -(Real.sqrt 2 / 2) := by
    apply le_antisymm
    · exact listMin_le_of_mem (by simp)
    · apply le_listMin_of_forall (by simp)
      intro x hx
      fin_cases hx <;> linarith
  rw [hmax, hmin]
  ring

/-- The 270-degree geometry is tessellated at 54 segments. -/
lemma numSegments_gWide : numSegments gWide = 54 := by
  unfold numSegments pyint
  have h : gWide.angle_degrees = 270 := rfl
  rw [h]
  norm_num
  rfl

/-- Cosine at 225 degrees. -/
lemma cos_five_pi_div_four : Real.cos (5 * Real.pi / 4) = -(Real.sqrt 2 / 2) := by
  have h : 5 * Real.pi / 4 = Real.pi + Real.pi / 4 := by ring
  rw [h, Real.cos_add]
  simp [Real.cos_pi_div_four]

/-- Sine at 225 degrees. -/
lemma sin_five_pi_div_four : Real.sin (5 * Real.pi / 4) = -(Real.sqrt 2 / 2) := by
  have h : 5 * Real.pi / 4 = Real.pi + Real.pi / 4 := by ring
  rw [h, Real.sin_add]
  simp [Real.sin_pi_div_four]

/-- The tessellated outer arc of the 270-degree geometry passes through the
45-degree point, which the presentation rotation carries to `(1, 0)`. -/
lemma outline_mem_right : ((1:ℝ), (0:ℝ)) ∈ rotatedOutlinePoints gWide := by
  have h2 : Real.sqrt 2 * Real.sqrt 2 = 2 := Real.mul_self_sqrt (by norm_num)
  unfold rotatedOutlinePoints
  apply List.mem_map.mpr
  refine ⟨(Real.sqrt 2 / 2, Real.sqrt 2 / 2), ?_, ?_⟩
  · have hang : radians gWide.angle_degrees * ((9:ℝ) / (54:ℝ)) = Real.pi / 4 := by
      have h : gWide.angle_degrees = 270 := rfl
      rw [h, radians_270]
      ring
    have hmem : (Real.sqrt 2 / 2, Real.sqrt 2 / 2) ∈ outerArcSamples gWide := by
      unfold outerArcSamples
      apply List.mem_map.mpr
      refine ⟨9, List.mem_range.mpr ?_, ?_⟩
      · rw [numSegments_gWide]
        norm_num
      show (gWide.outer_radius * Real.cos (radians gWide.angle_degrees *
          (((9:ℕ):ℝ) / ((numSegments gWide : ℕ) : ℝ))),
        gWide.outer_radius * Real.sin (radians gWide.angle_degrees *
          (((9:ℕ):ℝ) / ((numSegments gWide : ℕ) : ℝ)))) =
        (Real.sqrt 2 / 2, Real.sqrt 2 / 2)
      rw [numSegments_gWide]
      push_cast
      rw [hang]
      rw [show gWide.outer_radius = 1 from rfl, Real.cos_pi_div_four,
        Real.sin_pi_div_four]
      norm_num
    unfold outlinePoints
    simp only [List.mem_append]
    exact Or.inl (Or.inl (Or.inr hmem))
  · unfold rotatePoint
    rw [rot_gWide, Real.cos_neg, Real.sin_neg, Real.cos_pi_div_four,
      Real.sin_pi_div_four]
    rw [Prod.mk.injEq]
    constructor
    · linear_combination h2 / 2
    · ring

/-- The tessellated outer arc of the 270-degree geometry passes through the
225-degree point, which the presentation rotation carries to `(-1, 0)`. -/
lemma outline_mem_left : ((-1:ℝ), (0:ℝ)) ∈ rotatedOutlinePoints gWide := by
  have h2 : Real.sqrt 2 * Real.sqrt 2 = 2 := Real.mul_self_sqrt (by norm_num)
  unfold rotatedOutlinePoints
  apply List.mem_map.mpr
  refine ⟨(-(Real.sqrt 2 / 2), -(Real.sqrt 2 / 2)), ?_, ?_⟩
  · have hang : radians gWide.angle_degrees * ((45:ℝ) / (54:ℝ)) = 5 * Real.pi / 4 := by
      have h : gWide.angle_degrees = 270 := rfl
      rw [h, radians_270]
      ring
    have hmem : (-(Real.sqrt 2 / 2), -(Real.sqrt 2 / 2)) ∈ outerArcSamples gWide := by
      unfold outerArcSamples
      apply List.mem_map.mpr
      refine ⟨45, List.mem_range.mpr ?_, ?_⟩
      · rw [numSegments_gWide]
        norm_num
      show (gWide.outer_radius * Real.cos (radians gWide.angle_degrees *
          (((45:ℕ):ℝ) / ((numSegments gWide : ℕ) : ℝ))),
        gWide.outer_radius * Real.sin (radians gWide.angle_degrees *
          (((45:ℕ):ℝ) / ((numSegments gWide : ℕ) : ℝ)))) =
        (-(Real.sqrt 2 / 2), -(Real.sqrt 2 / 2))
      rw [numSegments_gWide]
      push_cast
      rw [hang]
      rw [show gWide.outer_radius = 1 from rfl, cos_five_pi_div_four,
        sin_five_pi_div_four]
      norm_num
    unfold outlinePoints
    simp only [List.mem_append]
    exact Or.inl (Or.inl (Or.inr hmem))
  · unfold rotatePoint
    rw [rot_gWide, Real.cos_neg, Real.sin_neg, Real.cos_pi_div_four,
      Real.sin_pi_div_four]
    rw [Prod.mk.injEq]
    constructor
    · linear_combination -h2 / 2
    · ring

/-- C6 counterexample: for the 270-degree geometry in a box of size 1, the
returned scale is `0.85/sqrt 2`, but the axis-aligned bounding box of the
entire rotated outline is at least 2 wide, so at that scale the outline
spans more than the target box: the entire-outline fit claimed by the
specification fails. -/
theorem C6_outline_exceeds_box_counterexample :
    computeScale gWide 1 = .ok (scaleValue gWide 1) ∧
    1 < scaleValue gWide 1 * rotatedOutlineWidth gWide := by
  refine ⟨computeScale_eq_ok gWide 1, ?_⟩
  have ha : (0:ℝ) < Real.sqrt 2 := Real.sqrt_pos.mpr (by norm_num)
  have hsv : scaleValue gWide 1 = 0.85 / Real.sqrt 2 := by
    unfold scaleValue
    rw [segment_width_gWide, segment_height_gWide, if_pos ha, min_self]
    norm_num
  have hmax : (1:ℝ) ≤ listMax ((rotatedOutlinePoints gWide).map Prod.fst) :=
    le_listMax_of_mem (List.mem_map.mpr ⟨(1, 0), outline_mem_right, rfl⟩)
  have hmin : listMin ((rotatedOutlinePoints gWide).map Prod.fst) ≤ -1 :=
    listMin_le_of_mem (List.mem_map.mpr ⟨(-1, 0), outline_mem_left, rfl⟩)
  have hwidth : 2 ≤ rotatedOutlineWidth gWide := by
    unfold rotatedOutlineWidth
    linarith
  have hs17 : Real.sqrt 2 < 1.7 := by
    nlinarith [Real.sq_sqrt (show (0:ℝ) ≤ 2 by norm_num), Real.sqrt_nonneg 2]
  have hsvpos : 0 < scaleValue gWide 1 := by
    rw [hsv]
    positivity
  calc (1:ℝ) < scaleValue gWide 1 * 2 := by
        rw [hsv, div_mul_eq_mul_div, lt_div_iff ha]
        nlinarith
    _ ≤ scaleValue gWide 1 * rotatedOutlineWidth gWide :=
        mul_le_mul_of_nonneg_left hwidth (le_of_lt hsvpos)

/-- C5 (amended): both arcs are sampled at `numSegments + 1` uniformly
spaced angles from `0` to the full angle inclusive, with the same count on
the inner arc, where the count is `max(20, floor(angle_degrees / 5))` —
truncation, not the rounding-up the specification asserts. -/
theorem C5_arc_tessellation (g : Geometry) :
    (outerArcSamples g).length = numSegments g + 1 ∧
    (innerArcSamples g).length = numSegments g + 1 ∧
    (numSegments g : ℤ) = max 20 ⌊g.angle_degrees / 5⌋ ∧
    ∀ i, i < numSegments g + 1 →
      (outerArcSamples g)[i]? =
        some (g.outer_radius *
                Real.cos (radians g.angle_degrees * ((i : ℝ) / (numSegments g : ℝ))),
              g.outer_radius *
                Real.sin (radians g.angle_degrees * ((i : ℝ) / (numSegments g : ℝ)))) := by
  refine ⟨by simp [outerArcSamples], by simp [innerArcSamples], ?_, ?_⟩
  · unfold numSegments pyint
    by_cases hx : g.angle_degrees / 5 < 0
    · rw [if_pos hx]
      have h1 : ⌈g.angle_degrees / 5⌉ ≤ 20 := by
        have hc : ⌈g.angle_degrees / 5⌉ ≤ (0:ℤ) := by
          apply Int.ceil_le.mpr
          push_cast
          linarith
        omega
      have h2 : ⌊g.angle_degrees / 5⌋ ≤ 20 := by
        have := Int.floor_le_ceil (g.angle_degrees / 5)
        omega
      rw [max_eq_left h1, max_eq_left h2]
      rfl
    · rw [if_neg hx]
      push_neg at hx
      have h0 : 0 ≤ (20 : ℤ) ⊔ ⌊g.angle_degrees / 5⌋ :=
        le_trans (by norm_num) (le_max_left _ _)
      rw [Int.toNat_of_nonneg h0]
  · intro i hi
    unfold outerArcSamples
    rw [List.getElem?_map, List.getElem?_range (by simpa using hi)]
    rfl

/-- C5 witness: the tessellation facts evaluated on the 101-degree geometry
at the first sample. -/
theorem C5_arc_tessellation_witness :
    (outerArcSamples gOdd).length = numSegments gOdd + 1 ∧
    (outerArcSamples gOdd)[0]? =
      some (gOdd.outer_radius *
              Real.cos (radians gOdd.angle_degrees * (((0:ℕ) : ℝ) / (numSegments gOdd : ℝ))),
            gOdd.outer_radius *
              Real.sin (radians gOdd.angle_degrees * (((0:ℕ) : ℝ) / (numSegments gOdd : ℝ)))) :=
  ⟨(C5_arc_tessellation gOdd).1,
   (C5_arc_tessellation gOdd).2.2.2 0 (by norm_num)⟩

/-- C5 counterexample: at 101 degrees the code tessellates with
`max(20, int(101/5)) = 20` segments, while the claimed
`max(20, ceil(101/5)) = 21` would give 22 sample points instead of 21. -/
theorem C5_ceil_counterexample :
    (numSegments gOdd : ℤ) ≠ max 20 ⌈gOdd.angle_degrees / 5⌉ ∧
    (outerArcSamples gOdd).length ≠ (max 20 ⌈gOdd.angle_degrees / 5⌉).toNat + 1 := by
  have hdeg : gOdd.angle_degrees = 101 := rfl
  have hceil : (⌈(101:ℝ) / 5⌉ : ℤ) = 21 := by
    rw [Int.ceil_eq_iff]
    norm_num
  have hN : numSegments gOdd = 20 := by
    unfold numSegments pyint
    rw [hdeg]
    rw [if_neg (by norm_num)]
    have hfl : (⌊(101:ℝ) / 5⌋ : ℤ) = 20 := by
      rw [Int.floor_eq_iff]
      norm_num
    rw [hfl]
    rfl
  have hlen : (outerArcSamples gOdd).length = 21 := by
    simp [outerArcSamples, hN]
  constructor
  · rw [hN, hdeg, hceil]
    norm_num
  · rw [hlen, hdeg, hceil]
    decide

/-- A common non-negative factor distributes out of a binary `min`. -/
lemma min_mul_nonneg (c w h : ℝ) (hc : 0 ≤ c) :
    min (w * c) (h * c) = c * min w h := by
  rcases le_total w h with hwh | hwh
  · rw [min_eq_left (by nlinarith), min_eq_left hwh]
    ring
  · rw [min_eq_right (by nlinarith), min_eq_right hwh]
    ring

/-- C7: the sheet layout is selected purely by unit count: one centered cell
of size `0.9 * min(width, height)` for a single unit; two side-by-side
cells; the triangular arrangement for three; 2x2, 3x2 (for 5-6) and 3x3
(for 7-9, so a batch of 7 takes the 3x3 branch) grids with row-major
index assignment `row = idx / cols`, `col = idx % cols`; and for more than
nine units the dynamic grid with `cols = min(4, ceil(sqrt(count * 1.3)))`,
`rows = ceil(count / cols)` and the cell size shrunk by an extra `0.85`. -/
theorem C7_layout_planner (n : ℕ) (margin page_height w h : ℝ) :
    planPlacements 1 margin page_height w h =
      [⟨(margin + w / 2, page_height - margin - h / 2), 0.9 * min w h⟩] ∧
    planPlacements 2 margin page_height w h =
      [⟨(margin + w / 4, page_height - margin - h / 2), min (w / 2.2) (h * 0.6)⟩,
       ⟨(margin + w / 2 + w / 4, page_height - margin - h / 2),
        min (w / 2.2) (h * 0.6)⟩] ∧
    planPlacements 3 margin page_height w h =
      [⟨(margin + 0.25 * w, page_height - margin - 0.7 * h), min (w / 2.5) (h / 2.5)⟩,
       ⟨(margin + 0.75 * w, page_height - margin - 0.7 * h), min (w / 2.5) (h / 2.5)⟩,
       ⟨(margin + 0.5 * w, page_height - margin - 0.3 * h), min (w / 2.5) (h / 2.5)⟩] ∧
    planPlacements 4 margin page_height w h =
      (List.range 4).map (fun idx =>
        ⟨(margin + ((idx % 2 : ℕ) : ℝ) * w / 2 + w / 4,
          page_height - margin - ((idx / 2 : ℕ) : ℝ) * h / 2 - h / 4),
         min (w / 2.3) (h / 2.3)⟩) ∧
    (5 ≤ n → n ≤ 6 → planPlacements n margin page_height w h =
      (List.range n).map (fun idx =>
        ⟨(margin + ((idx % 3 : ℕ) : ℝ) * w / 3 + w / 6,
          page_height - margin - ((idx / 3 : ℕ) : ℝ) * h / 2 - h / 4),
         min (w / 3.3) (h / 2.3)⟩)) ∧
    (7 ≤ n → n ≤ 9 → planPlacements n margin page_height w h =
      (List.range n).map (fun idx =>
        ⟨(margin + ((idx % 3 : ℕ) : ℝ) * w / 3 + w / 6,
          page_height - margin - ((idx / 3 : ℕ) : ℝ) * h / 3 - h / 6),
         min (w / 3.4) (h / 3.4)⟩)) ∧
    (9 < n → planPlacements n margin page_height w h =
      (List.range n).map (fun idx =>
        ⟨(margin + (((idx % dynCols n : ℕ) : ℝ) + 0.5) * (w / (dynCols n : ℝ)),
          page_height - margin -
            (((idx / dynCols n : ℕ) : ℝ) + 0.5) * (h / (dynRows n : ℝ))),
         min (w / ((dynCols n : ℝ) + 0.5)) (h / ((dynRows n : ℝ) + 0.5)) * 0.85⟩)) ∧
    (9 < n → (dynCols n : ℤ) = min 4 ⌈Real.sqrt ((n : ℝ) * 1.3)⌉ ∧
             (dynRows n : ℤ) = ⌈(n : ℝ) / (dynCols n : ℝ)⌉) := by
  refine ⟨?_, ?_, ?_, rfl, ?_, ?_, ?_, ?_⟩
  · have e1 : planPlacements 1 margin page_height w h =
        [⟨(margin + w / 2, page_height - margin - h / 2),
          min (w * 0.9) (h * 0.9)⟩] := rfl
    rw [e1, min_mul_nonneg 0.9 w h (by norm_num)]
  · have e2 : planPlacements 2 margin page_height w h =
        (List.range 2).map (fun idx =>
          ⟨(margin + (idx : ℝ) * w / 2 + w / 4, page_height - margin - h / 2),
           min (w / 2.2) (h * 0.6)⟩) := rfl
    rw [e2]
    norm_num [List.range_succ]
  · rfl
  · intro h5 h6
    unfold planPlacements
    rw [if_neg (by omega), if_neg (by omega), if_neg (by omega),
      if_neg (by omega), if_pos (by omega)]
  · intro h7 h9
    unfold planPlacements
    rw [if_neg (by omega), if_neg (by omega), if_neg (by omega),
      if_neg (by omega), if_neg (by omega), if_pos (by omega)]
  · intro h9
    unfold planPlacements
    rw [if_neg (by omega), if_neg (by omega), if_neg (by omega),
      if_neg (by omega), if_neg (by omega), if_neg (by omega)]
  · intro h9
    constructor
    · unfold dynCols
      rw [Int.toNat_of_nonneg
        (le_min (by norm_num) (Int.ceil_nonneg (Real.sqrt_nonneg _)))]
    · unfold dynRows
      rw [Int.toNat_of_nonneg
        (Int.ceil_nonneg (div_nonneg (Nat.cast_nonneg n) (Nat.cast_nonneg _)))]

/-- C7 witness: the 3x3 branch for a batch of 7, and the dynamic branch for
a batch of 12, on a concrete drawing surface. -/
theorem C7_layout_planner_witness :
    planPlacements 7 0 100 30 20 =
      (List.range 7).map (fun idx =>
        ⟨((0:ℝ) + ((idx % 3 : ℕ) : ℝ) * 30 / 3 + 30 / 6,
          (100:ℝ) - 0 - ((idx / 3 : ℕ) : ℝ) * 20 / 3 - 20 / 6),
         min ((30:ℝ) / 3.4) (20 / 3.4)⟩) ∧
    planPlacements 12 0 100 30 20 =
      (List.range 12).map (fun idx =>
        ⟨((0:ℝ) + (((idx % dynCols 12 : ℕ) : ℝ) + 0.5) * (30 / (dynCols 12 : ℝ)),
          (100:ℝ) - 0 -
            (((idx / dynCols 12 : ℕ) : ℝ) + 0.5) * (20 / (dynRows 12 : ℝ))),
         min ((30:ℝ) / ((dynCols 12 : ℝ) + 0.5)) (20 / ((dynRows 12 : ℝ) + 0.5)) *
           0.85⟩) :=
  ⟨(C7_layout_planner 7 0 100 30 20).2.2.2.2.2.1 (by norm_num) (by norm_num),
   (C7_layout_planner 12 0 100 30 20).2.2.2.2.2.2.1 (by norm_num)⟩

end

end RingSegment
